import Mathlib

/-!
# AutoChef: the admin list pipeline and the booking form validators

A shallow embedding of `src/admin/pages/BookedServices.jsx` (filter, pagination,
page navigation, export), of the validation and dialog handlers of
`src/client/components/BookingForm.jsx`, and of `validate` and `handleSubmit`
from `src/client/components/LoginSignupModal.jsx`.

Strings are sequences of Unicode characters; where the code reads a string's
`length`, the count is in UTF-16 code units (`jsLength`).

## The filter callback declares `service` twice

The callback handed to `bookedServices.filter` is

    (service) => { const { customerName, status, service, date } = filters; return ... }

The parameter `service` (the record) and the destructured constant `service`
(the criteria string) carry the same name.  ECMAScript makes this an early
error: a parameter name of an arrow function may not also be declared by
`const` at the top level of its body, so an engine rejects the script before
it runs anything (`arrowFunctionEarlyError`, `filteredServicesEarlyChecked`).

To say what the body would compute, the file gives it both possible meanings:

* `filterCallback`, `filteredServices`: the constant shadows the parameter, so
  `service` is the criteria string throughout and the record is never read;
* `filterCallbackParameterWins`, `filteredServicesParameterWins`: the parameter
  wins, so `service` is the record throughout and the `service` criterion is
  never read.

Pagination, page navigation and export are stated for a filtered collection
that is given, whatever produced it.
-/

namespace AutoChef

/-! ## Data model -/

/-- A booking record as returned by `GET /api/booking`. -/
structure BookingRecord where
  id : String
  customerName : String
  contact : String
  service : String
  date : String
  status : String
  vehicleInfo : String
deriving DecidableEq, Repr

/-- The `filters` state object.  `extra` holds keys other than the four initial
ones, which a computed-key update `{ ...prevFilters, [name]: value }` can add. -/
structure Filters where
  customerName : String
  status : String
  service : String
  date : String
  extra : List (String × String) := []
deriving DecidableEq, Repr

/-- The exceptions raised by the modelled code: a `TypeError` from reading the
named property of `undefined`, and the `SyntaxError` an engine reports for an
identifier that is declared twice. -/
inductive JSError where
  | typeError (reading : String)
  | syntaxError (redeclared : String)
deriving DecidableEq, Repr

/-- The JavaScript values the filter callback handles. -/
inductive JSVal where
  | undefined
  | str (s : String)
  | obj (r : BookingRecord)
deriving DecidableEq, Repr

namespace JSVal

/-- Truthiness (`ToBoolean`): `undefined` and the empty string are falsy. -/
def truthy : JSVal → Bool
  | undefined => false
  | str s => !s.isEmpty
  | obj _ => true

/-- Property read `v.name` for the four property names the callback uses.
A primitive string has none of them, so the read yields `undefined`; reading
any property of `undefined` throws. -/
def getProp (v : JSVal) (name : String) : Except JSError JSVal :=
  match v with
  | undefined => .error (.typeError name)
  | str _ => .ok undefined
  | obj r =>
    if name = "customerName" then .ok (str r.customerName)
    else if name = "status" then .ok (str r.status)
    else if name = "service" then .ok (str r.service)
    else if name = "date" then .ok (str r.date)
    else .ok undefined

/-- `ToString` of a value, as applied to the argument of `includes`. -/
def toJSString : JSVal → String
  | undefined => "undefined"
  | str s => s
  | obj _ => "[object Object]"

/-- Substring test on character lists: does `needle` occur in `hay`? -/
def includesChars (needle : List Char) : List Char → Bool
  | [] => needle.isEmpty
  | c :: cs => needle.isPrefixOf (c :: cs) || includesChars needle cs

/-- Method call `v.toLowerCase()`.  Only strings have the method; looking it up
on `undefined` throws, calling it on a record (where it is `undefined`) throws.
Letters outside ASCII are left as they are. -/
def toLowerCase : JSVal → Except JSError JSVal
  | str s => .ok (str (s.map Char.toLower))
  | _ => .error (.typeError "toLowerCase")

/-- Method call `v.includes(arg)` on a string receiver. -/
def includes (v arg : JSVal) : Except JSError Bool :=
  match v with
  | str s => .ok (includesChars arg.toJSString.toList s.toList)
  | _ => .error (.typeError "includes")

/-- Strict equality `v === w` where `w` is a string value. -/
def strictEqStr (v : JSVal) (w : String) : Bool :=
  match v with
  | str s => s == w
  | _ => false

end JSVal

/-- The operator `a || b` where the left operand has already been evaluated to a
boolean: the right operand is evaluated only when the left one is false. -/
def jsOr (a : Bool) (b : Except JSError Bool) : Except JSError Bool :=
  if a then .ok true else b

/-- The operator `a && b` with short-circuit evaluation. -/
def jsAnd (a b : Except JSError Bool) : Except JSError Bool :=
  match a with
  | .error e => .error e
  | .ok false => .ok false
  | .ok true => b

/-! ## Filter engine (`BookedServices.jsx`, lines 72-82) -/

/-- The early-error rule for an arrow function: it is a syntax error if a name
bound by the parameters is also lexically declared at the top level of the
body. -/
def arrowFunctionEarlyError (parameters lexicallyDeclared : List String) : Bool :=
  parameters.any fun name => lexicallyDeclared.contains name

/-- The names bound by the parameters of the filter callback (line 73). -/
def filterCallbackParameters : List String := ["service"]

/-- The names declared by `const` at the top level of its body (line 74). -/
def filterCallbackLexicalNames : List String := ["customerName", "status", "service", "date"]

/-- The callback of `bookedServices.filter`, read with the constant shadowing
the parameter.  Its parameter is named `service`, and so is the constant
destructured from `filters` in its first statement; the body sees the
constant. -/
def filterCallback (filters : Filters) (service : JSVal) : Except JSError Bool :=
  let customerName := JSVal.str filters.customerName
  let status := JSVal.str filters.status
  let service := JSVal.str filters.service
  let date := JSVal.str filters.date
  jsAnd
    (jsOr (!customerName.truthy) (do
      let a ← service.getProp "customerName"
      let b ← a.toLowerCase
      let c ← customerName.toLowerCase
      b.includes c))
    (jsAnd
      (jsOr (!status.truthy) (do
        let a ← service.getProp "status"
        pure (a.strictEqStr filters.status)))
      (jsAnd
        (jsOr (!service.truthy) (do
          let a ← service.getProp "service"
          a.includes service))
        (jsOr (!date.truthy) (do
          let a ← service.getProp "date"
          pure (a.strictEqStr filters.date)))))

/-- `Array.prototype.filter` with a callback that can throw: elements are
visited in order and the first exception aborts the whole call. -/
def arrayFilter {α : Type} (cb : α → Except JSError Bool) : List α → Except JSError (List α)
  | [] => .ok []
  | x :: xs =>
    match cb x with
    | .error e => .error e
    | .ok keep =>
      match arrayFilter cb xs with
      | .error e => .error e
      | .ok rest => .ok (if keep then x :: rest else rest)

/-- The memoised `filteredServices`, with the callback read as `filterCallback`. -/
def filteredServices (bookedServices : List BookingRecord) (filters : Filters) :
    Except JSError (List BookingRecord) :=
  arrayFilter (fun service => filterCallback filters (JSVal.obj service)) bookedServices

/-- The callback of `bookedServices.filter`, read with the parameter winning over
the constant of the same name: `service` is the record throughout. -/
def filterCallbackParameterWins (filters : Filters) (service : JSVal) : Except JSError Bool :=
  let customerName := JSVal.str filters.customerName
  let status := JSVal.str filters.status
  let date := JSVal.str filters.date
  jsAnd
    (jsOr (!customerName.truthy) (do
      let a ← service.getProp "customerName"
      let b ← a.toLowerCase
      let c ← customerName.toLowerCase
      b.includes c))
    (jsAnd
      (jsOr (!status.truthy) (do
        let a ← service.getProp "status"
        pure (a.strictEqStr filters.status)))
      (jsAnd
        (jsOr (!service.truthy) (do
          let a ← service.getProp "service"
          a.includes service))
        (jsOr (!date.truthy) (do
          let a ← service.getProp "date"
          pure (a.strictEqStr filters.date)))))

/-- The memoised `filteredServices`, with the callback read as
`filterCallbackParameterWins`. -/
def filteredServicesParameterWins (bookedServices : List BookingRecord) (filters : Filters) :
    Except JSError (List BookingRecord) :=
  arrayFilter (fun service => filterCallbackParameterWins filters (JSVal.obj service))
    bookedServices

/-- What an ECMAScript engine computes for `filteredServices`: the early-error
check of the callback comes before any evaluation. -/
def filteredServicesEarlyChecked (bookedServices : List BookingRecord) (filters : Filters) :
    Except JSError (List BookingRecord) :=
  if arrowFunctionEarlyError filterCallbackParameters filterCallbackLexicalNames then
    .error (.syntaxError "service")
  else filteredServices bookedServices filters

/-! ## Component state and derived values -/

/-- The React state of `BookedServices` (the five `useState` cells). -/
structure View where
  bookedServices : List BookingRecord
  currentPage : Int
  itemsPerPage : Nat
  filters : Filters
  selectedService : Option BookingRecord
deriving DecidableEq, Repr

/-- The state at mount; `filterStatus` is `location.state?.filterStatus || ''`. -/
def View.initial (filterStatus : String) : View where
  bookedServices := []
  currentPage := 1
  itemsPerPage := 5
  filters := { customerName := "", status := filterStatus, service := "", date := "" }
  selectedService := none

/-- `Array.prototype.slice(start, stop)` for integer arguments: a negative
argument counts from the end, and both are clamped to `[0, length]`. -/
def slice {α : Type} (xs : List α) (start stop : Int) : List α :=
  let len : Int := xs.length
  let k : Int := if start < 0 then max (len + start) 0 else min start len
  let final : Int := if stop < 0 then max (len + stop) 0 else min stop len
  (xs.drop k.toNat).take (final - k).toNat

/-- `Math.ceil(a / b)` for a length `a` and a positive integer `b`.  (For the
lengths and page sizes that occur the floating-point quotient is exact enough
that the ceiling is the integer ceiling.) -/
def mathCeilDiv (a b : Nat) : Nat := (a + b - 1) / b

/-- `startIndex = (currentPage - 1) * itemsPerPage`. -/
def startIndex (currentPage : Int) (itemsPerPage : Nat) : Int :=
  (currentPage - 1) * itemsPerPage

/-- `paginatedServices = filteredServices.slice(startIndex, startIndex + itemsPerPage)`. -/
def paginatedServices (filtered : List BookingRecord) (currentPage : Int) (itemsPerPage : Nat) :
    List BookingRecord :=
  slice filtered (startIndex currentPage itemsPerPage)
    (startIndex currentPage itemsPerPage + itemsPerPage)

/-- `totalPages = Math.ceil(filteredServices.length / itemsPerPage)`. -/
def totalPages (filtered : List BookingRecord) (itemsPerPage : Nat) : Nat :=
  mathCeilDiv filtered.length itemsPerPage

/-- The values one render of the component computes from its state; the event
handlers created by that render close over them. -/
structure Render where
  view : View
  filteredServices : List BookingRecord
  paginatedServices : List BookingRecord
  totalPages : Nat
deriving DecidableEq, Repr

/-- One render: it fails when the filter callback throws. -/
def render (v : View) : Except JSError Render :=
  match filteredServices v.bookedServices v.filters with
  | .error e => .error e
  | .ok fs => .ok
      { view := v
        filteredServices := fs
        paginatedServices := paginatedServices fs v.currentPage v.itemsPerPage
        totalPages := totalPages fs v.itemsPerPage }

/-! ## Event handlers

A handler belongs to a render `r` (whose values it reads) and produces an
update of the state `v` that is current when it runs. -/

/-- The update `setBookedServices(data)` issued when the fetch succeeds. -/
def setBookedServices (data : List BookingRecord) (v : View) : View :=
  { v with bookedServices := data }

/-- The resize listener: `width` is `window.innerWidth`. -/
def updateItemsPerPage (width : Nat) (v : View) : View :=
  if width ≥ 3840 then { v with itemsPerPage := 15 }
  else if width ≥ 3160 then { v with itemsPerPage := 12 }
  else if width ≥ 2560 then { v with itemsPerPage := 10 }
  else if width ≥ 2000 then { v with itemsPerPage := 7 }
  else if width ≥ 1536 then { v with itemsPerPage := 6 }
  else { v with itemsPerPage := 5 }

/-- The page-change handler; `page` is an integer page number. -/
def handlePageChange (r : Render) (page : Int) (v : View) : View :=
  if page > 0 ∧ page ≤ mathCeilDiv r.filteredServices.length r.view.itemsPerPage then
    { v with currentPage := page }
  else v

/-- The object `{ ...prevFilters, [name]: value }`. -/
def Filters.update (prevFilters : Filters) (name value : String) : Filters :=
  if name = "customerName" then { prevFilters with customerName := value }
  else if name = "status" then { prevFilters with status := value }
  else if name = "service" then { prevFilters with service := value }
  else if name = "date" then { prevFilters with date := value }
  else { prevFilters with
         extra := (name, value) :: prevFilters.extra.filter (fun kv => kv.1 != name) }

/-- The filter-change handler. -/
def handleFilterChange (name value : String) (v : View) : View :=
  { v with filters := v.filters.update name value, currentPage := 1 }

/-- The `keydown` listener registered by render `r`. -/
def handleKeyDown (r : Render) (key : String) (v : View) : View :=
  if key = "ArrowRight" then handlePageChange r (r.view.currentPage + 1) v
  else if key = "ArrowLeft" then handlePageChange r (r.view.currentPage - 1) v
  else v

/-- The page-state invariant of the data model, for a filtered collection of
`totalItems` records. -/
def PageInvariant (totalItems itemsPerPage : Nat) (currentPage : Int) : Prop :=
  1 ≤ currentPage ∧ currentPage ≤ max 1 (mathCeilDiv totalItems itemsPerPage : Int)

/-- The values of a render of state `v` in which the filter has produced
`filtered`. -/
def Render.ofFiltered (v : View) (filtered : List BookingRecord) : Render :=
  { view := v
    filteredServices := filtered
    paginatedServices := AutoChef.paginatedServices filtered v.currentPage v.itemsPerPage
    totalPages := AutoChef.totalPages filtered v.itemsPerPage }

/-- The render that follows render `r` once the state has become `v`, for a `v`
that has the `filters` and `bookedServices` of `r`: these are the dependencies
of the `useMemo` of `filteredServices`, which therefore hands back the value it
computed for `r`. -/
def Render.memoNext (r : Render) (v : View) : Render :=
  Render.ofFiltered v r.filteredServices

/-- The page-state invariant on the values of a render. -/
def Render.Invariant (r : Render) : Prop :=
  PageInvariant r.filteredServices.length r.view.itemsPerPage r.view.currentPage

/-! ## Export (`BookedServices.jsx`, lines 99-127) -/

/-- What `handleExport` hands to the document libraries. -/
inductive ExportCall where
  /-- The calls `doc.text(title, 20, 10)`, `doc.autoTable({ head, body })` and
  `doc.save(fileName)`. -/
  | pdf (title : String) (head : List (List String)) (body : List (List String))
      (fileName : String)
  /-- The call `XLSX.utils.json_to_sheet(rows)`; each row is an object given as
  its key-value pairs in insertion order. -/
  | excel (rows : List (List (String × String))) (sheetName fileName : String)
deriving DecidableEq, Repr

/-- The export handler of render `r`; any other format does nothing. -/
def handleExport (r : Render) (format : String) : Option ExportCall :=
  if format = "pdf" then
    some (.pdf "Booked Services" [["Customer", "Service", "Date", "Status"]]
      (r.filteredServices.map fun service =>
        [service.customerName, service.service, service.date, service.status])
      "booked_services.pdf")
  else if format = "excel" then
    some (.excel
      (r.filteredServices.map fun service =>
        [("Customer", service.customerName), ("Service", service.service),
         ("Date", service.date), ("Status", service.status)])
      "Booked Services" "booked_services.xlsx")
  else none

/-- The data rows of an export call, each cell paired with the title of its
column. -/
def ExportCall.rows : ExportCall → List (List (String × String))
  | .pdf _ head body _ => body.map (fun row => (head.headD []).zip row)
  | .excel rows _ _ => rows

/-! ## Regular expressions (as used by `BookingForm.jsx`)

A small regular-expression matcher by derivatives.  A JavaScript pattern of
the form `/^r$/` (no flags) tests whether the whole input matches `r`. -/

/-- A character class: a union of inclusive ranges, possibly negated. -/
structure CharClass where
  ranges : List (Char × Char)
  negated : Bool := false

/-- Does the class contain the character? -/
def CharClass.test (k : CharClass) (c : Char) : Bool :=
  (k.ranges.any fun r => decide (r.1 ≤ c) && decide (c ≤ r.2)) != k.negated

/-- Regular expressions over characters. -/
inductive Regex where
  | empty
  | eps
  | cls (k : CharClass)
  | seq (a b : Regex)
  | alt (a b : Regex)
  | star (a : Regex)

namespace Regex

/-- The quantifier `r+`. -/
def plus (r : Regex) : Regex := seq r (star r)

/-- Does the expression match the empty input? -/
def nullable : Regex → Bool
  | empty => false
  | eps => true
  | cls _ => false
  | seq a b => nullable a && nullable b
  | alt a b => nullable a || nullable b
  | star _ => true

/-- The derivative of an expression by one character. -/
def deriv : Regex → Char → Regex
  | empty, _ => empty
  | eps, _ => empty
  | cls k, c => if k.test c then eps else empty
  | seq a b, c =>
    if nullable a then alt (seq (deriv a c) b) (deriv b c) else seq (deriv a c) b
  | alt a b, c => alt (deriv a c) (deriv b c)
  | star a, c => seq (deriv a c) (star a)

/-- Does the whole input match the expression?  This is `/^r$/.test(input)`. -/
def fullMatch (r : Regex) (input : List Char) : Bool :=
  nullable (input.foldl deriv r)

end Regex

/-! ## Contact-number validation (`BookingForm.jsx`, lines 36-44) -/

/-- The class `[0-9()+\- ]`. -/
def phoneClass : CharClass :=
  { ranges := [('0', '9'), ('(', '('), (')', ')'), ('+', '+'), ('-', '-'), (' ', ' ')] }

/-- The pattern `phoneRegex = /^[0-9()+\- ]+$/` (the anchors are supplied by
`Regex.fullMatch`). -/
def phoneRegex : Regex := Regex.plus (Regex.cls phoneClass)

/-- The class `[^0-9]`. -/
def nonDigitClass : CharClass := { ranges := [('0', '9')], negated := true }

/-- The call `input.replace(/[k]/g, '')` with a character class `k`: every
character of the class is deleted. -/
def replaceAllWithEmpty (k : CharClass) (input : List Char) : List Char :=
  input.filter (fun c => !k.test c)

/-- The validator `isContactNumberValid`. -/
def isContactNumberValid (contactNumber : String) : Bool :=
  let numericContactNumber := replaceAllWithEmpty nonDigitClass contactNumber.toList
  phoneRegex.fullMatch contactNumber.toList &&
    decide (numericContactNumber.length ≥ 10) &&
    decide (numericContactNumber.length ≤ 15)

/-! ## Sample data -/

/-- A completed oil-change booking. -/
def annOilChange : BookingRecord :=
  { id := "b1", customerName := "Ann", contact := "+1 (555) 123-4567",
    service := "Oil Change", date := "2024-01-01", status := "Completed",
    vehicleInfo := "Civic" }

/-- Criteria in which only `status` is set. -/
def statusOnly (status : String) : Filters :=
  { customerName := "", status := status, service := "", date := "" }

/-- Criteria in which only `service` is set. -/
def serviceOnly (service : String) : Filters :=
  { customerName := "", status := "", service := service, date := "" }

/-- Criteria in which only `customerName` is set. -/
def customerNameOnly (customerName : String) : Filters :=
  { customerName := customerName, status := "", service := "", date := "" }

/-- Twelve bookings, of which three are completed. -/
def twelveBookings : List BookingRecord :=
  [("b01", "Pending"), ("b02", "Completed"), ("b03", "Confirmed"), ("b04", "Pending"),
   ("b05", "Cancelled"), ("b06", "Completed"), ("b07", "Pending"), ("b08", "Confirmed"),
   ("b09", "Pending"), ("b10", "Completed"), ("b11", "Cancelled"), ("b12", "Pending")].map
    fun e => { annOilChange with id := e.1, status := e.2 }

/-- The twelve sample bookings, unfiltered, on page 1 at five per page. -/
def sampleView : View :=
  { bookedServices := twelveBookings, currentPage := 1, itemsPerPage := 5,
    filters := { customerName := "", status := "", service := "", date := "" },
    selectedService := none }

/-- The render of `sampleView`. -/
def sampleRender : Render :=
  { view := sampleView, filteredServices := twelveBookings,
    paginatedServices := twelveBookings.take 5, totalPages := 3 }

/-- The sample state after navigating to page 3. -/
def pageThreeView : View := { sampleView with currentPage := 3 }

/-- A render of the sample state on page 3 with all twelve bookings filtered in. -/
def pageThreeRender : Render := Render.ofFiltered pageThreeView twelveBookings

/-- The render at mount: the collection is still empty, and so is its filter. -/
def mountRender : Render := Render.ofFiltered (View.initial "") []

/-- Criteria with every field empty. -/
def emptyCriteria : Filters :=
  { customerName := "", status := "", service := "", date := "" }

/-- The language of a regular expression: the inputs it matches in full.  The
matcher `Regex.fullMatch` is proved to decide it. -/
inductive Regex.Matches : Regex → List Char → Prop where
  | eps : Regex.Matches .eps []
  | cls (k : CharClass) (c : Char) : k.test c = true → Regex.Matches (.cls k) [c]
  | seq (a b : Regex) (s t : List Char) :
      Regex.Matches a s → Regex.Matches b t → Regex.Matches (.seq a b) (s ++ t)
  | altLeft (a b : Regex) (s : List Char) : Regex.Matches a s → Regex.Matches (.alt a b) s
  | altRight (a b : Regex) (s : List Char) : Regex.Matches b s → Regex.Matches (.alt a b) s
  | starNil (a : Regex) : Regex.Matches (.star a) []
  | starCons (a : Regex) (s t : List Char) :
      Regex.Matches a s → Regex.Matches (.star a) t → Regex.Matches (.star a) (s ++ t)

/-! ## JavaScript strings: white space, `trim`, `length`, unanchored `test` -/

/-- The class `\s`: the white-space characters and line terminators, which are
also what `String.prototype.trim` strips. -/
def whitespaceClass : CharClass :=
  { ranges := [('\t', '\r'), (' ', ' '), ('\u00a0', '\u00a0'), ('\u1680', '\u1680'),
      ('\u2000', '\u200a'), ('\u2028', '\u2029'), ('\u202f', '\u202f'),
      ('\u205f', '\u205f'), ('\u3000', '\u3000'), ('\ufeff', '\ufeff')] }

/-- The class `\S`. -/
def nonWhitespaceClass : CharClass := { whitespaceClass with negated := true }

/-- The method `trim` on character lists: white space is dropped from both ends. -/
def trimChars (s : List Char) : List Char :=
  ((s.dropWhile whitespaceClass.test).reverse.dropWhile whitespaceClass.test).reverse

/-- The method `String.prototype.trim`. -/
def jsTrim (s : String) : String := String.mk (trimChars s.toList)

/-- The `length` of a string: its number of UTF-16 code units (a character
outside the basic plane counts twice). -/
def jsLength (s : String) : Nat :=
  (s.toList.map fun c => if c.toNat < 65536 then 1 else 2).sum

/-- A pattern that matches the one character `c`. -/
def Regex.lit (c : Char) : Regex := Regex.cls { ranges := [(c, c)] }

/-- The unanchored `/r/.test(input)`: true when, from some start position, some
stretch of the input matches `r`. -/
def Regex.test (r : Regex) (input : List Char) : Bool :=
  input.tails.any fun rest => rest.inits.any fun stretch => r.fullMatch stretch

/-! ## Sign-in and sign-up form (`LoginSignupModal.jsx`) -/

/-- The reducer state of the form. -/
structure LoginState where
  email : String
  firstname : String
  lastname : String
  password : String
deriving DecidableEq, Repr

/-- The constant `initialState`. -/
def initialState : LoginState := { email := "", firstname := "", lastname := "", password := "" }

/-- An error object such as `newErrors`: its keys with their messages, in
insertion order. -/
abbrev FormErrors := List (String × String)

/-- The state of the `LoginSignupModal` component. -/
structure LoginModal where
  action : String
  state : LoginState
  errors : FormErrors
  loading : Bool
  responseMessage : String
deriving DecidableEq, Repr

/-- The pattern `\S+@\S+\.\S+`. -/
def emailRegex : Regex :=
  .seq (Regex.plus (.cls nonWhitespaceClass))
    (.seq (Regex.lit '@')
      (.seq (Regex.plus (.cls nonWhitespaceClass))
        (.seq (Regex.lit '.') (Regex.plus (.cls nonWhitespaceClass)))))

/-- The function `sanitizeInput`. -/
def sanitizeInput (input : String) : String := jsTrim input

/-- The function `validate`, for the current `action` and form `state`. -/
def validate (action : String) (state : LoginState) : FormErrors :=
  (if state.email = "" then [("email", "Email is required")]
   else if !emailRegex.test state.email.toList then
     [("email", "Please enter a valid email address")]
   else []) ++
  (if state.password = "" then [("password", "Password is required")]
   else if jsLength state.password < 6 then
     [("password", "Password must be at least 6 characters")]
   else []) ++
  (if action = "Sign Up" then
    (if state.firstname = "" then [("firstname", "First name is required")] else []) ++
    (if state.lastname = "" then [("lastname", "Last name is required")] else [])
   else [])

/-- The JSON body of the authentication request. -/
structure AuthPayload where
  email : String
  password : String
  firstName : Option String
  lastName : Option String
deriving DecidableEq, Repr

/-- A `fetch` call of the sign-in and sign-up form. -/
structure AuthRequest where
  url : String
  method : String
  body : AuthPayload
deriving DecidableEq, Repr

/-- The handler `handleSubmit` up to and including its `fetch` call: the state
updates it queues and the request it sends, if any.  `backendUrl` is
`process.env.REACT_APP_BACKEND_URL`. -/
def handleSubmit (backendUrl : String) (m : LoginModal) : LoginModal × Option AuthRequest :=
  let cleared := { m with responseMessage := "" }
  let formErrors := validate m.action m.state
  if formErrors.length > 0 then
    ({ cleared with errors := formErrors }, none)
  else
    let payload : AuthPayload :=
      { email := sanitizeInput m.state.email
        password := sanitizeInput m.state.password
        firstName := if m.action = "Sign Up" then some (sanitizeInput m.state.firstname) else none
        lastName := if m.action = "Sign Up" then some (sanitizeInput m.state.lastname) else none }
    let url :=
      if m.action = "Sign In" then backendUrl ++ "/api/auth" else backendUrl ++ "/api/users"
    ({ cleared with errors := [], loading := true },
      some { url := url, method := "POST", body := payload })

/-! ## Booking form (`BookingForm.jsx`) -/

/-- The `modalState` object. -/
structure ModalState where
  isOpen : Bool
  isBookingConfirmed : Bool
deriving DecidableEq, Repr

/-- The `formData` object.  `extra` holds keys other than the four initial
ones, which `handleInputChange` adds when an input carries another name. -/
structure FormData where
  fullName : String
  contactNumber : String
  service : String
  serviceInfo : String
  extra : List (String × String) := []
deriving DecidableEq, Repr

/-- The state of the `BookingForm` component. -/
structure BookingForm where
  modalState : ModalState
  formData : FormData
deriving DecidableEq, Repr

/-- The state at mount. -/
def BookingForm.initial : BookingForm where
  modalState := { isOpen := false, isBookingConfirmed := false }
  formData := { fullName := "", contactNumber := "", service := "", serviceInfo := "" }

/-- The object `{ ...prevFormData, [name]: value }`. -/
def FormData.update (prevFormData : FormData) (name value : String) : FormData :=
  if name = "fullName" then { prevFormData with fullName := value }
  else if name = "contactNumber" then { prevFormData with contactNumber := value }
  else if name = "service" then { prevFormData with service := value }
  else if name = "serviceInfo" then { prevFormData with serviceInfo := value }
  else { prevFormData with
         extra := (name, value) :: prevFormData.extra.filter (fun kv => kv.1 != name) }

/-- The handler `handleInputChange` for an input named `name` holding `value`. -/
def handleInputChange (name value : String) (s : BookingForm) : BookingForm :=
  { s with formData := s.formData.update name value }

/-- The predicate `isFormValid`. -/
def isFormValid (formData : FormData) : Bool :=
  decide (jsTrim formData.fullName ≠ "") &&
    isContactNumberValid formData.contactNumber &&
    decide (jsTrim formData.service ≠ "") &&
    decide (jsTrim formData.serviceInfo ≠ "")

/-- The handler `handleOpenModal`. -/
def handleOpenModal (s : BookingForm) : BookingForm :=
  if isFormValid s.formData then { s with modalState := { s.modalState with isOpen := true } }
  else s

/-- The JSON body of the booking request. -/
structure BookingPayload where
  customerName : String
  contact : String
  service : String
  vehicleInfo : String
deriving DecidableEq, Repr

/-- The `payload` that `handleConfirmBooking` posts to `/api/booking`. -/
def bookingPayload (formData : FormData) : BookingPayload :=
  { customerName := formData.fullName, contact := formData.contactNumber,
    service := formData.service, vehicleInfo := formData.serviceInfo }

/-- The state change of `handleConfirmBooking` once the request has completed:
on a successful response the form is reset and the confirmation is shown; on a
failed one (the `catch` branch) the state is left as it is. -/
def handleConfirmBooking (responseOk : Bool) (s : BookingForm) : BookingForm :=
  if responseOk then
    { modalState := { isOpen := false, isBookingConfirmed := true }
      formData := { fullName := "", contactNumber := "", service := "", serviceInfo := "" } }
  else s

/-- The handler `handleCloseModal`. -/
def handleCloseModal (s : BookingForm) : BookingForm :=
  { s with modalState := { s.modalState with isOpen := false } }

/-- The handler `handleCloseConfirmationModal`. -/
def handleCloseConfirmationModal (s : BookingForm) : BookingForm :=
  { s with modalState := { s.modalState with isBookingConfirmed := false } }

/-- The user events of the booking form. -/
inductive BookingEvent where
  | inputChange (name value : String)
  | openModal
  | confirmBooking (responseOk : Bool)
  | closeModal
  | closeConfirmationModal
deriving DecidableEq, Repr

/-- The handler that an event runs. -/
def BookingEvent.step : BookingEvent → BookingForm → BookingForm
  | .inputChange name value => handleInputChange name value
  | .openModal => handleOpenModal
  | .confirmBooking responseOk => handleConfirmBooking responseOk
  | .closeModal => handleCloseModal
  | .closeConfirmationModal => handleCloseConfirmationModal

/-- Which events the rendered page can deliver.  The "Yes, Confirm" and "Cancel"
buttons are children of the dialog rendered with `isOpen = modalState.isOpen`,
the "Close" button of the one rendered with `modalState.isBookingConfirmed`.
The form controls lie under the overlay of an open dialog, so they deliver
events only while no dialog is open.  (The `disabled` attribute of the
"Confirm Booking" button is not taken into account: a click on it is
deliverable whether or not the form is valid.) -/
def BookingEvent.enabled : BookingEvent → BookingForm → Bool
  | .inputChange _ _, s => !s.modalState.isOpen && !s.modalState.isBookingConfirmed
  | .openModal, s => !s.modalState.isOpen && !s.modalState.isBookingConfirmed
  | .confirmBooking _, s => s.modalState.isOpen
  | .closeModal, s => s.modalState.isOpen
  | .closeConfirmationModal, s => s.modalState.isBookingConfirmed

/-- The state after a sequence of events, if each is deliverable when it occurs. -/
def runEvents : List BookingEvent → BookingForm → Option BookingForm
  | [], s => some s
  | e :: es, s => if e.enabled s then runEvents es (e.step s) else none

/-- A session that fills the form in and presses "Confirm Booking". -/
def fillAndOpen : List BookingEvent :=
  [.inputChange "fullName" "Ann", .inputChange "contactNumber" "+1 (555) 123-4567",
   .inputChange "service" "Oil Change", .inputChange "serviceInfo" "Civic", .openModal]

/-! ## Filter criteria as an object; the fetch effect -/

/-- The property read `filters[name]`; `none` is `undefined`. -/
def Filters.get (f : Filters) (name : String) : Option String :=
  if name = "customerName" then some f.customerName
  else if name = "status" then some f.status
  else if name = "service" then some f.service
  else if name = "date" then some f.date
  else (f.extra.find? fun kv => kv.1 == name).map Prod.snd

/-- The dependency list of the effect that fetches the bookings: `[]`. -/
def fetchEffectDeps (_v : View) : List String := []

/-- After a render React runs an effect again when its dependency list differs
from that of the previous render. -/
def effectReruns (previous next : List String) : Bool := previous != next

/-- Does the step from state `before` to state `after` issue a fetch? -/
def fetchIssued (before after : View) : Bool :=
  effectReruns (fetchEffectDeps before) (fetchEffectDeps after)

/-- A sign-up form whose password and first name are white space only. -/
def blankSignUp : LoginModal :=
  { action := "Sign Up"
    state := { email := "a@b.c", firstname := " ", lastname := "Lee", password := "      " }
    errors := [], loading := false, responseMessage := "" }

/-- A well-formed sign-in form. -/
def goodSignIn : LoginModal :=
  { action := "Sign In"
    state := { email := "ann@example.com", firstname := "", lastname := "",
               password := "secret1" }
    errors := [], loading := false, responseMessage := "" }

/-- A run of non-space characters, as matched by `\S+`: non-empty, without
white space. -/
def NonSpaceRun (s : List Char) : Prop :=
  s ≠ [] ∧ ∀ c ∈ s, whitespaceClass.test c = false

/-! ## The filter engine: lemmas -/

/-- Whatever `arrayFilter` returns is a sublist of its input. -/
theorem arrayFilter_sublist {α : Type} (cb : α → Except JSError Bool) :
    ∀ (xs r : List α), arrayFilter cb xs = .ok r → r.Sublist xs := by
  intro xs
  induction xs with
  | nil =>
    intro r h
    simp only [arrayFilter, Except.ok.injEq] at h
    subst h
    exact List.Sublist.refl _
  | cons x xs ih =>
    intro r h
    unfold arrayFilter at h
    cases hx : cb x with
    | error e => rw [hx] at h; cases h
    | ok keep =>
      rw [hx] at h
      cases hrest : arrayFilter cb xs with
      | error e => rw [hrest] at h; cases h
      | ok rest =>
        rw [hrest] at h
        simp only [Except.ok.injEq] at h
        subst h
        cases keep with
        | true => simpa using (ih rest hrest).cons₂ x
        | false => simpa using (ih rest hrest).cons x

/-- When the callback accepts every element, `arrayFilter` returns its input. -/
theorem arrayFilter_all_true {α : Type} (cb : α → Except JSError Bool)
    (h : ∀ x, cb x = .ok true) : ∀ xs : List α, arrayFilter cb xs = .ok xs := by
  intro xs
  induction xs with
  | nil => rfl
  | cons x xs ih => simp [arrayFilter, h x, ih]

/-- The filter callback does not read the record it is applied to. -/
theorem filterCallback_ignores_record (filters : Filters) (a b : JSVal) :
    filterCallback filters a = filterCallback filters b := rfl

/-- What the filter callback computes, for any record: it throws when a
`customerName` criterion is set; otherwise it rejects when a `status` criterion
is set; otherwise it throws when a `service` criterion is set; otherwise it
rejects when a `date` criterion is set; otherwise it accepts. -/
theorem filterCallback_eq (filters : Filters) (x : JSVal) :
    filterCallback filters x =
      if filters.customerName ≠ "" then .error (.typeError "toLowerCase")
      else if filters.status ≠ "" then .ok false
      else if filters.service ≠ "" then .error (.typeError "includes")
      else if filters.date ≠ "" then .ok false
      else .ok true := by
  have hempty : ∀ s : String, s ≠ "" → s.isEmpty = false := by
    intro s hs
    cases h : s.isEmpty with
    | true => exact absurd ((String.isEmpty_iff s).1 h) hs
    | false => rfl
  have he : "".isEmpty = true := rfl
  unfold filterCallback
  by_cases h1 : filters.customerName = ""
  · by_cases h2 : filters.status = ""
    · by_cases h3 : filters.service = ""
      · by_cases h4 : filters.date = ""
        · simp [h1, h2, h3, h4, he, jsAnd, jsOr, JSVal.truthy, Functor.map, Except.map]
        · simp [h1, h2, h3, h4, hempty _ h4, he, jsAnd, jsOr, JSVal.truthy, Functor.map, Except.map, JSVal.getProp,
            JSVal.strictEqStr, bind, Except.bind, pure, Except.pure]
      · simp [h1, h2, h3, hempty _ h3, he, jsAnd, jsOr, JSVal.truthy, Functor.map, Except.map, JSVal.getProp,
          JSVal.includes, bind, Except.bind, pure, Except.pure]
    · simp [h1, h2, hempty _ h2, he, jsAnd, jsOr, JSVal.truthy, Functor.map, Except.map, JSVal.getProp,
        JSVal.strictEqStr, bind, Except.bind, pure, Except.pure]
  · simp [h1, hempty _ h1, he, jsAnd, jsOr, JSVal.truthy, Functor.map, Except.map, JSVal.getProp,
      JSVal.toLowerCase, bind, Except.bind, pure, Except.pure]

/-- The result of the filter, when there is one, is a sublist of the collection,
and so is the result of filtering it a second time; an empty collection
filters to the empty list. -/
theorem filteredServices_sublist_of_ok (C : List BookingRecord) (F : Filters)
    (r : List BookingRecord) (h : filteredServices C F = .ok r) :
    r.Sublist C ∧
      (∀ F2 r2, filteredServices r F2 = .ok r2 → r2.Sublist r ∧ r2.Sublist C) ∧
      filteredServices [] F = .ok [] :=
  ⟨arrayFilter_sublist _ C r h,
   fun _ r2 h2 => ⟨arrayFilter_sublist _ r r2 h2,
     (arrayFilter_sublist _ r r2 h2).trans (arrayFilter_sublist _ C r h)⟩,
   rfl⟩

/-! ## The filter engine: claims -/

/-- C1: with only `status = "Completed"` set, the filter should return exactly
the records whose status is "Completed".  On a collection holding one completed
booking the code returns the empty list: the callback compares the `status`
property of the criteria's `service` string, which is `undefined`, with the
status criterion. -/
theorem filteredServices_status_only_drops_match :
    annOilChange.status = "Completed" ∧
      filteredServices [annOilChange] (statusOnly "Completed") = .ok [] :=
  ⟨rfl, rfl⟩

/-- C2: with only `service` set, the filter should keep the records whose
service field contains the criterion.  On a collection holding an "Oil Change"
booking and the criterion "Oil" the code throws a `TypeError`: it calls
`includes` on the `service` property of the criterion string itself. -/
theorem filteredServices_service_only_throws :
    JSVal.includesChars "Oil".toList annOilChange.service.toList = true ∧
      filteredServices [annOilChange] (serviceOnly "Oil") =
        .error (.typeError "includes") :=
  ⟨by decide, rfl⟩

/-- Under the reading of `filterCallback` (the constant shadows the parameter)
empty criteria keep every record: each conjunct stops at its empty criterion. -/
theorem filteredServices_empty_criteria (C : List BookingRecord)
    (extra : List (String × String)) :
    filteredServices C
      { customerName := "", status := "", service := "", date := "", extra := extra } =
      .ok C :=
  arrayFilter_all_true _ (fun _ => rfl) C

/-- The callback is rejected by the early-error rule, so an engine computes no
`filteredServices` for any collection and criteria. -/
theorem filteredServicesEarlyChecked_eq (C : List BookingRecord) (F : Filters) :
    filteredServicesEarlyChecked C F = .error (.syntaxError "service") := rfl

/-- Under the parameter-wins reading the inputs of C1 and C2 lose their record
as well: the `service` conjunct asks whether the record's service text contains
the record itself. -/
theorem filteredServicesParameterWins_drops_match :
    filteredServicesParameterWins [annOilChange] (statusOnly "Completed") = .ok [] ∧
      filteredServicesParameterWins [annOilChange] (serviceOnly "Oil") = .ok [] :=
  ⟨rfl, rfl⟩

/-- C3: empty criteria should be the identity of the filter.  For a collection of
one booking and four empty criteria the code does not return that collection:
the callback redeclares its parameter `service`, which an engine rejects as a
syntax error before anything is filtered; and read with the parameter winning,
`!service` is false for a record and `service.service.includes(service)` drops
it. -/
theorem filteredServices_empty_criteria_not_identity :
    arrowFunctionEarlyError filterCallbackParameters filterCallbackLexicalNames = true ∧
      filteredServicesEarlyChecked [annOilChange] emptyCriteria =
        .error (.syntaxError "service") ∧
      filteredServicesParameterWins [annOilChange] emptyCriteria = .ok [] :=
  ⟨rfl, rfl, rfl⟩

/-- C4: for every collection and criteria the filter should return a sublist of
the collection.  With a non-empty `customerName` criterion and a non-empty
collection the code returns nothing: it throws a `TypeError` from calling
`toLowerCase` on the `customerName` property of the criterion string. -/
theorem filteredServices_customerName_throws :
    filteredServices [annOilChange] (customerNameOnly "an") =
      .error (.typeError "toLowerCase") :=
  rfl

/-! ## Pagination: lemmas -/

/-- A slice that starts at a natural index `a` and spans `b` positions drops `a`
elements and takes `b`. -/
theorem slice_nat {α : Type} (xs : List α) (a b : Nat) :
    slice xs (a : Int) ((a : Int) + b) = (xs.drop a).take b := by
  unfold slice
  have h1 : ¬ ((a : Int) < 0) := by omega
  have h2 : ¬ ((a : Int) + b < 0) := by omega
  simp only [h1, h2, if_false]
  by_cases hle : a ≤ xs.length
  · have e1 : (min (a : Int) (xs.length : Int)).toNat = a := by omega
    have e2 : (min ((a : Int) + b) (xs.length : Int) - min (a : Int) (xs.length : Int)).toNat
        = min b (xs.length - a) := by omega
    rw [e1, e2, List.take_eq_take]
    simp
  · have e1 : (min (a : Int) (xs.length : Int)).toNat = xs.length := by omega
    rw [e1, List.drop_eq_nil_of_le (Nat.le_refl _), List.drop_eq_nil_of_le (by omega)]
    simp

/-- Page `n ≥ 1` is the `p` elements that follow the first `(n - 1) * p`. -/
theorem paginatedServices_eq (fs : List BookingRecord) (n p : Nat) (h1 : 1 ≤ n) :
    paginatedServices fs (n : Int) p = (fs.drop ((n - 1) * p)).take p := by
  unfold paginatedServices startIndex
  have e : ((n : Int) - 1) * (p : Int) = (((n - 1) * p : Nat) : Int) := by
    rw [Nat.cast_mul, Nat.cast_sub h1]; simp
  rw [e, slice_nat]

/-- The pages together have room for every element. -/
theorem mathCeilDiv_mul_ge (a b : Nat) (hb : 0 < b) : a ≤ mathCeilDiv a b * b := by
  unfold mathCeilDiv
  have := Nat.lt_div_mul_add (a := a + b - 1) hb
  omega

/-- The pages before the last one do not hold every element. -/
theorem mathCeilDiv_pred_mul_lt (a b : Nat) (hb : 0 < b) (ha : 0 < a) :
    (mathCeilDiv a b - 1) * b < a := by
  unfold mathCeilDiv
  have h := Nat.div_mul_le_self (a + b - 1) b
  have h2 : 1 ≤ (a + b - 1) / b := (Nat.one_le_div_iff hb).2 (by omega)
  have h3 : ((a + b - 1) / b - 1) * b = (a + b - 1) / b * b - b := by
    rw [Nat.sub_mul, Nat.one_mul]
  omega

/-- No elements, no pages. -/
theorem mathCeilDiv_zero (b : Nat) (hb : 0 < b) : mathCeilDiv 0 b = 0 := by
  unfold mathCeilDiv
  exact Nat.div_eq_of_lt (by omega)

/-- A non-empty collection has at least one page. -/
theorem mathCeilDiv_pos (a b : Nat) (hb : 0 < b) (ha : 0 < a) : 1 ≤ mathCeilDiv a b := by
  unfold mathCeilDiv
  exact (Nat.one_le_div_iff hb).2 (by omega)

/-- The definition `mathCeilDiv` computes the ceiling of the rational quotient. -/
theorem mathCeilDiv_eq_ceil (a b : Nat) (hb : 0 < b) :
    ((mathCeilDiv a b : Nat) : Int) = ⌈(a : ℚ) / (b : ℚ)⌉ := by
  symm
  rw [Int.ceil_eq_iff]
  have hbq : (0 : ℚ) < (b : ℚ) := by exact_mod_cast hb
  constructor
  · rw [lt_div_iff₀ hbq]
    rcases Nat.eq_zero_or_pos a with h0 | hpos
    · subst h0
      rw [mathCeilDiv_zero b hb]
      simp
      exact hb
    · have h := mathCeilDiv_pred_mul_lt a b hb hpos
      have h1 := mathCeilDiv_pos a b hb hpos
      have : (((mathCeilDiv a b - 1) * b : Nat) : ℚ) < (a : ℚ) := by exact_mod_cast h
      rw [Nat.cast_mul, Nat.cast_sub h1] at this
      simpa using this
  · rw [div_le_iff₀ hbq]
    have h := mathCeilDiv_mul_ge a b hb
    exact_mod_cast h

/-- Concatenating the first `k` chunks of `p` elements gives the first `k * p`
elements. -/
theorem flatMap_chunks_eq_take {α : Type} (C : List α) (p : Nat) :
    ∀ k : Nat, (List.range k).flatMap (fun i => (C.drop (i * p)).take p) = C.take (k * p) := by
  intro k
  induction k with
  | zero => simp
  | succ k ih =>
    rw [List.range_succ, List.flatMap_append, ih, List.flatMap_singleton, Nat.succ_mul,
      List.take_add]

/-! ## Pagination: claims -/

/-- C5: for a filtered collection of length `L`, a positive page size `p` and a
page number `n` with `1 ≤ n ≤ totalPages`, where `totalPages = ceil(L / p)` (0
when `L = 0`, at least 1 otherwise), `paginatedServices` is exactly the elements
at indices `[(n-1)*p, min(n*p, L))`; it has `p` items when `n < totalPages` and
`L - (totalPages-1)*p` items, between 1 and `p`, when `n = totalPages`.  Twelve
records with `p = 5` give 3 pages, 5 items on page 1 and 2 on page 3. -/
theorem paginatedServices_page (fs : List BookingRecord) (p n : Nat)
    (hp : 0 < p) (h1 : 1 ≤ n) (hn : n ≤ totalPages fs p) :
    ((totalPages fs p : Int) = ⌈(fs.length : ℚ) / (p : ℚ)⌉) ∧
    (∀ gs : List BookingRecord,
      (gs.length = 0 → totalPages gs p = 0) ∧ (0 < gs.length → 1 ≤ totalPages gs p)) ∧
    paginatedServices fs (n : Int) p =
      (fs.drop ((n - 1) * p)).take (min (n * p) fs.length - (n - 1) * p) ∧
    (∀ i, i < min (n * p) fs.length - (n - 1) * p →
      (n - 1) * p + i < fs.length ∧
      (paginatedServices fs (n : Int) p)[i]? = fs[(n - 1) * p + i]?) ∧
    (paginatedServices fs (n : Int) p).length = min (n * p) fs.length - (n - 1) * p ∧
    (n < totalPages fs p → (paginatedServices fs (n : Int) p).length = p) ∧
    (n = totalPages fs p →
      (paginatedServices fs (n : Int) p).length = fs.length - (totalPages fs p - 1) * p ∧
      1 ≤ (paginatedServices fs (n : Int) p).length) ∧
    (paginatedServices fs (n : Int) p).length ≤ p ∧
    (∀ gs : List BookingRecord, gs.length = 12 →
      totalPages gs 5 = 3 ∧ (paginatedServices gs 1 5).length = 5 ∧
      (paginatedServices gs 3 5).length = 2) := by
  have hLpos : 0 < fs.length := by
    rcases Nat.eq_zero_or_pos fs.length with h0 | h
    · unfold totalPages at hn
      rw [h0, mathCeilDiv_zero p hp] at hn
      omega
    · exact h
  have hT1 : (totalPages fs p - 1) * p < fs.length :=
    mathCeilDiv_pred_mul_lt fs.length p hp hLpos
  have hT2 : fs.length ≤ totalPages fs p * p := mathCeilDiv_mul_ge fs.length p hp
  have hnp : n * p = (n - 1) * p + p := by
    conv_lhs => rw [← Nat.sub_add_cancel h1]
    rw [Nat.add_mul, Nat.one_mul]
  have hA : (n - 1) * p ≤ (totalPages fs p - 1) * p :=
    Nat.mul_le_mul_right p (Nat.sub_le_sub_right hn 1)
  have hAL : (n - 1) * p < fs.length := lt_of_le_of_lt hA hT1
  have hpage := paginatedServices_eq fs n p h1
  have hlen : (paginatedServices fs (n : Int) p).length = min (n * p) fs.length - (n - 1) * p := by
    rw [hpage, List.length_take, List.length_drop]
    omega
  refine ⟨mathCeilDiv_eq_ceil fs.length p hp, ?_, ?_, ?_, hlen, ?_, ?_, ?_, ?_⟩
  · intro gs
    constructor
    · intro h0
      unfold totalPages
      rw [h0, mathCeilDiv_zero p hp]
    · intro h
      exact mathCeilDiv_pos gs.length p hp h
  · rw [hpage, List.take_eq_take, List.length_drop]
    omega
  · intro i hi
    constructor
    · omega
    · rw [hpage, List.getElem?_take_of_lt (by omega), List.getElem?_drop]
  · intro hlt
    have : n * p ≤ (totalPages fs p - 1) * p := Nat.mul_le_mul_right p (by omega)
    rw [hlen]
    omega
  · intro heq
    have hT2n : fs.length ≤ n * p := by rw [heq]; exact hT2
    rw [hlen, ← heq]
    omega
  · rw [hlen]
    omega
  · intro gs hgs
    have e1 : paginatedServices gs 1 5 = (gs.drop ((1 - 1) * 5)).take 5 :=
      paginatedServices_eq gs 1 5 (by decide)
    have e3 : paginatedServices gs 3 5 = (gs.drop ((3 - 1) * 5)).take 5 :=
      paginatedServices_eq gs 3 5 (by decide)
    refine ⟨?_, ?_, ?_⟩
    · unfold totalPages mathCeilDiv
      rw [hgs]
    · rw [e1, List.length_take, List.length_drop, hgs]
      decide
    · rw [e3, List.length_take, List.length_drop, hgs]
      decide

/-- The witness of C5: page 3 of the twelve sample bookings at five per page. -/
theorem paginatedServices_page_witness :
    0 < 5 ∧ 1 ≤ 3 ∧ 3 ≤ totalPages twelveBookings 5 ∧
      (paginatedServices twelveBookings (3 : Nat) 5).length = min (3 * 5) twelveBookings.length - (3 - 1) * 5 :=
  ⟨by decide, by decide, by decide,
    (paginatedServices_page twelveBookings 5 3 (by decide) (by decide) (by decide)).2.2.2.2.1⟩

/-- C6: for every filtered collection and every positive page size,
concatenating `paginatedServices` for the pages 1, 2, ..., `totalPages` in order
gives back the collection. -/
theorem paginatedServices_concat (C : List BookingRecord) (p : Nat) (hp : 0 < p) :
    (List.range (totalPages C p)).flatMap
      (fun i => paginatedServices C (((i + 1 : Nat) : Int)) p) = C := by
  have hfun : (fun i : Nat => paginatedServices C (((i + 1 : Nat) : Int)) p) =
      fun i => (C.drop (i * p)).take p := by
    funext i
    rw [paginatedServices_eq C (i + 1) p (by omega), Nat.add_sub_cancel]
  rw [hfun, flatMap_chunks_eq_take]
  exact List.take_of_length_le (mathCeilDiv_mul_ge C.length p hp)

/-- The witness of C6: the three pages of the twelve sample bookings. -/
theorem paginatedServices_concat_witness :
    0 < 5 ∧ (List.range (totalPages twelveBookings 5)).flatMap
      (fun i => paginatedServices twelveBookings (((i + 1 : Nat) : Int)) 5) = twelveBookings :=
  ⟨by decide, paginatedServices_concat twelveBookings 5 (by decide)⟩

/-! ## Page navigation and the page-state invariant -/

/-- The sample render is what `render` computes from the sample state. -/
theorem render_sampleView : render sampleView = .ok sampleRender := rfl

/-- A successful render records the state it was computed from and the result of
the filter. -/
theorem render_ok (v : View) (r : Render) (h : render v = .ok r) :
    r.view = v ∧ filteredServices v.bookedServices v.filters = .ok r.filteredServices := by
  unfold render at h
  cases hfs : filteredServices v.bookedServices v.filters with
  | error e => rw [hfs] at h; cases h
  | ok fs =>
    rw [hfs] at h
    simp only [Except.ok.injEq] at h
    subst h
    exact ⟨rfl, rfl⟩

/-- C7: `handlePageChange(page)` sets `currentPage` to `page` if and only if
`1 ≤ page ≤ ceil(filteredServices.length / itemsPerPage)`; every other request,
in particular page 0, page `totalPages + 1` and any request while the filtered
collection is empty, leaves the state unchanged, and the handler never fails. -/
theorem handlePageChange_guard (r : Render) (page : Int) (v : View)
    (hp : 0 < r.view.itemsPerPage) :
    ((1 ≤ page ∧ page ≤ ⌈(r.filteredServices.length : ℚ) / (r.view.itemsPerPage : ℚ)⌉) →
      handlePageChange r page v = { v with currentPage := page }) ∧
    (¬ (1 ≤ page ∧ page ≤ ⌈(r.filteredServices.length : ℚ) / (r.view.itemsPerPage : ℚ)⌉) →
      handlePageChange r page v = v) ∧
    handlePageChange r 0 v = v ∧
    handlePageChange r (⌈(r.filteredServices.length : ℚ) / (r.view.itemsPerPage : ℚ)⌉ + 1) v = v ∧
    (r.filteredServices = [] → handlePageChange r page v = v) := by
  have hceil := mathCeilDiv_eq_ceil r.filteredServices.length r.view.itemsPerPage hp
  rw [← hceil]
  refine ⟨?_, ?_, ?_, ?_, ?_⟩
  · intro h
    unfold handlePageChange
    rw [if_pos ⟨by omega, h.2⟩]
  · intro h
    unfold handlePageChange
    rw [if_neg]
    intro h2
    exact h ⟨by omega, h2.2⟩
  · unfold handlePageChange
    rw [if_neg]
    intro h2
    omega
  · unfold handlePageChange
    rw [if_neg]
    intro h2
    omega
  · intro hnil
    unfold handlePageChange
    rw [if_neg]
    intro h2
    rw [hnil, List.length_nil, mathCeilDiv_zero _ hp] at h2
    have := h2.1
    have := h2.2
    omega

/-- The witness of C7: on the sample render a request for page 0 changes
nothing. -/
theorem handlePageChange_guard_witness :
    0 < sampleRender.view.itemsPerPage ∧ handlePageChange sampleRender 0 sampleView = sampleView :=
  ⟨by decide, (handlePageChange_guard sampleRender 0 sampleView (by decide)).2.2.1⟩

/-- On page 1 the invariant holds whatever the collection and the page size. -/
theorem pageInvariant_one (totalItems itemsPerPage : Nat) :
    PageInvariant totalItems itemsPerPage 1 := by
  unfold PageInvariant
  omega

/-- The update functions for the page size and the collection leave
`currentPage`, and the resize leaves the dependencies of the memoised filter. -/
theorem updateItemsPerPage_frame (width : Nat) (v : View) :
    (updateItemsPerPage width v).currentPage = v.currentPage ∧
      (updateItemsPerPage width v).filters = v.filters ∧
      (updateItemsPerPage width v).bookedServices = v.bookedServices := by
  unfold updateItemsPerPage
  split_ifs <;> exact ⟨rfl, rfl, rfl⟩

/-- C8, as stated, fails: nothing clamps `currentPage` when the page size or the
collection changes.  On page 3 of twelve filtered records at five per page the
invariant holds; a resize to a width of 3840 leaves the criteria and the
collection, hence the twelve filtered records, and gives fifteen per page, one
page, with `currentPage` still 3; replacing the collection by an empty one,
whose filter is empty, leaves `currentPage` at 3 as well. -/
theorem pageInvariant_not_preserved :
    pageThreeRender.Invariant ∧
      (updateItemsPerPage 3840 pageThreeView).filters = pageThreeView.filters ∧
      (updateItemsPerPage 3840 pageThreeView).bookedServices = pageThreeView.bookedServices ∧
      ¬ (pageThreeRender.memoNext (updateItemsPerPage 3840 pageThreeView)).Invariant ∧
      ¬ (Render.ofFiltered (setBookedServices [] pageThreeView) []).Invariant := by
  refine ⟨?_, rfl, rfl, ?_, ?_⟩
  · unfold Render.Invariant PageInvariant
    decide
  · unfold Render.Invariant PageInvariant
    decide
  · unfold Render.Invariant PageInvariant
    decide

/-- C8 (amended): the invariant `1 ≤ currentPage ≤ max(1, totalPages)` holds in
the initial state, whatever the filter returns; it holds after
`handleFilterChange`, whatever the filter then returns; `handlePageChange`, run
from the render that is current, leaves the criteria and the collection and
preserves it; replacing the collection and `updateItemsPerPage` leave
`currentPage` as it is, without clamping, and so preserve the invariant when
`currentPage` is 1. -/
theorem pageInvariant_preserved :
    (∀ filterStatus filtered, (Render.ofFiltered (View.initial filterStatus) filtered).Invariant) ∧
    (∀ name value v filtered,
      (Render.ofFiltered (handleFilterChange name value v) filtered).Invariant) ∧
    (∀ (r : Render) (page : Int), 0 < r.view.itemsPerPage → r.Invariant →
      (handlePageChange r page r.view).filters = r.view.filters ∧
      (handlePageChange r page r.view).bookedServices = r.view.bookedServices ∧
      (r.memoNext (handlePageChange r page r.view)).Invariant) ∧
    (∀ data v, (setBookedServices data v).currentPage = v.currentPage ∧
      (v.currentPage = 1 →
        ∀ filtered, (Render.ofFiltered (setBookedServices data v) filtered).Invariant)) ∧
    (∀ width (r : Render),
      (updateItemsPerPage width r.view).currentPage = r.view.currentPage ∧
      (updateItemsPerPage width r.view).filters = r.view.filters ∧
      (updateItemsPerPage width r.view).bookedServices = r.view.bookedServices ∧
      (r.view.currentPage = 1 → (r.memoNext (updateItemsPerPage width r.view)).Invariant)) := by
  refine ⟨?_, ?_, ?_, ?_, ?_⟩
  · intro filterStatus filtered
    exact pageInvariant_one _ _
  · intro name value v filtered
    exact pageInvariant_one _ _
  · intro r page _ hinv
    unfold handlePageChange
    split
    · rename_i hcond
      refine ⟨rfl, rfl, ?_⟩
      unfold Render.memoNext Render.ofFiltered Render.Invariant PageInvariant
      simp only
      omega
    · exact ⟨rfl, rfl, hinv⟩
  · intro data v
    refine ⟨rfl, ?_⟩
    intro h1 filtered
    unfold Render.ofFiltered Render.Invariant
    simp only [setBookedServices, h1]
    exact pageInvariant_one _ _
  · intro width r
    obtain ⟨hcp, hf, hb⟩ := updateItemsPerPage_frame width r.view
    refine ⟨hcp, hf, hb, ?_⟩
    intro h1
    unfold Render.memoNext Render.ofFiltered Render.Invariant
    simp only [hcp, h1]
    exact pageInvariant_one _ _

/-- The witness of C8 (amended): moving the sample render to page 2. -/
theorem pageInvariant_preserved_witness :
    0 < sampleRender.view.itemsPerPage ∧ sampleRender.Invariant ∧
      (sampleRender.memoNext (handlePageChange sampleRender 2 sampleRender.view)).Invariant :=
  ⟨by decide, pageInvariant_one _ _,
    (pageInvariant_preserved.2.2.1 sampleRender 2 (by decide) (pageInvariant_one _ _)).2.2⟩

/-! ## The arrow-key listener

The `keydown` effect has the dependency list `[currentPage]`: its listener is
registered again only when `currentPage` changes, and until then it runs the
`handlePageChange` of the render that registered it. -/

/-- The listener registered at mount, when the filtered collection is empty,
changes nothing, whatever the state has become: the arrow keys do not move off
page 1 after the bookings have arrived. -/
theorem handleKeyDown_mountRender (key : String) (v : View) :
    handleKeyDown mountRender key v = v := by
  have h : ∀ page : Int, handlePageChange mountRender page v = v := by
    intro page
    unfold handlePageChange
    rw [if_neg]
    intro hc
    have h0 : mathCeilDiv mountRender.filteredServices.length mountRender.view.itemsPerPage = 0 :=
      rfl
    rw [h0] at hc
    have := hc.1
    have := hc.2
    omega
  unfold handleKeyDown
  split_ifs <;> first | exact h _ | rfl

/-- A listener registered at five per page and run after a resize to fifteen per
page moves the twelve filtered records, now one page, to page 2. -/
theorem handleKeyDown_earlier_render :
    (sampleRender.memoNext (updateItemsPerPage 3840 sampleView)).Invariant ∧
      ¬ (sampleRender.memoNext
          (handleKeyDown sampleRender "ArrowRight"
            (updateItemsPerPage 3840 sampleView))).Invariant := by
  refine ⟨pageInvariant_one _ _, ?_⟩
  unfold Render.Invariant PageInvariant
  decide

/-! ## Export: claim -/

/-- C9: for both export formats the data rows handed to the document library
are built from the whole filtered collection: for `N` filtered records there are
exactly `N` rows, row `i` holds `customerName`, `service`, `date`, `status` of
the `i`-th filtered record under the columns Customer, Service, Date, Status;
the rows are the same for every render with the same filtered collection,
whatever its `currentPage`, `itemsPerPage` and visible page; an empty filtered
collection gives zero rows. -/
theorem handleExport_rows (r : Render) (format : String)
    (hf : format = "pdf" ∨ format = "excel") :
    ∃ call, handleExport r format = some call ∧
      call.rows.length = r.filteredServices.length ∧
      (∀ i (h : i < r.filteredServices.length),
        call.rows[i]? = some
          [("Customer", (r.filteredServices.get ⟨i, h⟩).customerName),
           ("Service", (r.filteredServices.get ⟨i, h⟩).service),
           ("Date", (r.filteredServices.get ⟨i, h⟩).date),
           ("Status", (r.filteredServices.get ⟨i, h⟩).status)]) ∧
      (∀ r2 : Render, r2.filteredServices = r.filteredServices →
        handleExport r2 format = some call) ∧
      (r.filteredServices = [] → call.rows = []) := by
  rcases hf with hf | hf
  · subst hf
    refine ⟨_, rfl, ?_, ?_, ?_, ?_⟩
    · simp [ExportCall.rows]
    · intro i h
      simp [ExportCall.rows, List.getElem?_map, List.getElem?_eq_getElem h]
    · intro r2 h2
      simp [handleExport, h2]
    · intro hnil
      simp [ExportCall.rows, hnil]
  · subst hf
    refine ⟨_, rfl, ?_, ?_, ?_, ?_⟩
    · simp [ExportCall.rows]
    · intro i h
      simp [ExportCall.rows, List.getElem?_map, List.getElem?_eq_getElem h]
    · intro r2 h2
      simp [handleExport, h2]
    · intro hnil
      simp [ExportCall.rows, hnil]

/-- The witness of C9: the PDF export of the sample render. -/
theorem handleExport_rows_witness :
    ("pdf" = "pdf" ∨ "pdf" = "excel") ∧
      ∃ call, handleExport sampleRender "pdf" = some call ∧
        call.rows.length = sampleRender.filteredServices.length :=
  ⟨Or.inl rfl,
    (handleExport_rows sampleRender "pdf" (Or.inl rfl)).imp fun _ h => ⟨h.1, h.2.1⟩⟩

/-! ## Regular expressions: the matcher decides the language -/

namespace Regex

/-- Nothing matches `empty`. -/
theorem not_matches_empty (s : List Char) : ¬ Matches empty s := by
  intro h
  cases h

/-- Only the empty input matches `eps`. -/
theorem matches_eps_iff (s : List Char) : Matches eps s ↔ s = [] := by
  constructor
  · intro h
    cases h
    rfl
  · intro h
    subst h
    exact Matches.eps

/-- A class matches exactly the one-character inputs it contains. -/
theorem matches_cls_iff (k : CharClass) (s : List Char) :
    Matches (cls k) s ↔ ∃ c, s = [c] ∧ k.test c = true := by
  constructor
  · intro h
    cases h with
    | cls _ c hc => exact ⟨c, rfl, hc⟩
  · rintro ⟨c, rfl, hc⟩
    exact Matches.cls k c hc

/-- A sequence matches the concatenations of matches of its parts. -/
theorem matches_seq_iff (a b : Regex) (s : List Char) :
    Matches (seq a b) s ↔ ∃ s1 s2, s = s1 ++ s2 ∧ Matches a s1 ∧ Matches b s2 := by
  constructor
  · intro h
    cases h with
    | seq _ _ s1 s2 h1 h2 => exact ⟨s1, s2, rfl, h1, h2⟩
  · rintro ⟨s1, s2, rfl, h1, h2⟩
    exact Matches.seq a b s1 s2 h1 h2

/-- An alternative matches what either branch matches. -/
theorem matches_alt_iff (a b : Regex) (s : List Char) :
    Matches (alt a b) s ↔ Matches a s ∨ Matches b s := by
  constructor
  · intro h
    cases h with
    | altLeft _ _ _ h1 => exact Or.inl h1
    | altRight _ _ _ h2 => exact Or.inr h2
  · rintro (h | h)
    · exact Matches.altLeft a b s h
    · exact Matches.altRight a b s h

/-- A non-empty match of `star a` starts with a non-empty match of `a`. -/
theorem matches_star_cons (a : Regex) (c : Char) (s : List Char)
    (h : Matches (star a) (c :: s)) :
    ∃ s1 s2, s = s1 ++ s2 ∧ Matches a (c :: s1) ∧ Matches (star a) s2 := by
  generalize hr : star a = r at h
  generalize hx : c :: s = x at h
  induction h with
  | eps => cases hr
  | cls _ _ _ => cases hr
  | seq _ _ _ _ _ _ _ _ => cases hr
  | altLeft _ _ _ _ _ => cases hr
  | altRight _ _ _ _ _ => cases hr
  | starNil _ => cases hx
  | starCons a2 u t hu ht _ iht =>
    cases hr
    cases u with
    | nil => exact iht rfl hx
    | cons d u2 =>
      simp only [List.cons_append, List.cons.injEq] at hx
      obtain ⟨hd, hs⟩ := hx
      subst hd
      exact ⟨u2, t, hs, hu, ht⟩

/-- The test `nullable` decides whether the empty input matches. -/
theorem nullable_iff (r : Regex) : nullable r = true ↔ Matches r [] := by
  induction r with
  | empty => simp [nullable, not_matches_empty]
  | eps => simp [nullable, matches_eps_iff]
  | cls k => simp [nullable, matches_cls_iff]
  | seq a b iha ihb =>
    simp only [nullable, Bool.and_eq_true, iha, ihb, matches_seq_iff]
    constructor
    · rintro ⟨h1, h2⟩
      exact ⟨[], [], rfl, h1, h2⟩
    · rintro ⟨s1, s2, h, h1, h2⟩
      have hnil := List.append_eq_nil.1 h.symm
      rw [hnil.1] at h1
      rw [hnil.2] at h2
      exact ⟨h1, h2⟩
  | alt a b iha ihb => simp [nullable, iha, ihb, matches_alt_iff]
  | star a _ => simp [nullable, Matches.starNil]

/-- The derivative by `c` matches `s` exactly when the expression matches
`c :: s`. -/
theorem deriv_iff (r : Regex) : ∀ (c : Char) (s : List Char),
    Matches (deriv r c) s ↔ Matches r (c :: s) := by
  induction r with
  | empty => intro c s; simp [deriv, not_matches_empty]
  | eps => intro c s; simp [deriv, not_matches_empty, matches_eps_iff]
  | cls k =>
    intro c s
    simp only [deriv, matches_cls_iff]
    by_cases hk : k.test c = true
    · rw [if_pos hk, matches_eps_iff]
      constructor
      · intro h
        exact ⟨c, by rw [h], hk⟩
      · rintro ⟨d, hd, _⟩
        exact (List.cons.inj hd).2
    · rw [if_neg hk]
      constructor
      · intro h
        exact absurd h (not_matches_empty s)
      · rintro ⟨d, hd, hkd⟩
        rw [← (List.cons.inj hd).1] at hkd
        exact absurd hkd hk
  | seq a b iha ihb =>
    intro c s
    have key : Matches (seq a b) (c :: s) ↔
        Matches (seq (deriv a c) b) s ∨ (Matches a [] ∧ Matches b (c :: s)) := by
      simp only [matches_seq_iff]
      constructor
      · rintro ⟨s1, s2, h, h1, h2⟩
        cases s1 with
        | nil =>
          simp only [List.nil_append] at h
          subst h
          exact Or.inr ⟨h1, h2⟩
        | cons d s1 =>
          simp only [List.cons_append, List.cons.injEq] at h
          obtain ⟨hd, hs⟩ := h
          subst hd
          exact Or.inl ⟨s1, s2, hs, (iha c s1).2 h1, h2⟩
      · rintro (⟨s1, s2, h, h1, h2⟩ | ⟨h1, h2⟩)
        · exact ⟨c :: s1, s2, by simp [h], (iha c s1).1 h1, h2⟩
        · exact ⟨[], c :: s, rfl, h1, h2⟩
    rw [key]
    by_cases hn : nullable a = true
    · simp only [deriv, hn, if_true, matches_alt_iff, ihb]
      have := (nullable_iff a).1 hn
      tauto
    · simp only [deriv, hn, if_false]
      have : ¬ Matches a [] := fun h => hn ((nullable_iff a).2 h)
      tauto
  | alt a b iha ihb =>
    intro c s
    simp [deriv, matches_alt_iff, iha, ihb]
  | star a iha =>
    intro c s
    simp only [deriv, matches_seq_iff]
    constructor
    · rintro ⟨s1, s2, h, h1, h2⟩
      subst h
      exact Matches.starCons a (c :: s1) s2 ((iha c s1).1 h1) h2
    · intro h
      obtain ⟨s1, s2, hs, h1, h2⟩ := matches_star_cons a c s h
      exact ⟨s1, s2, hs, (iha c s1).2 h1, h2⟩

/-- The matcher decides the language. -/
theorem fullMatch_iff (r : Regex) (s : List Char) : fullMatch r s = true ↔ Matches r s := by
  unfold fullMatch
  induction s generalizing r with
  | nil => exact nullable_iff r
  | cons c s ih =>
    rw [List.foldl_cons, ih (deriv r c)]
    exact deriv_iff r c s

/-- The inputs matched by `[k]*`: every character is in the class. -/
theorem matches_star_cls_iff (k : CharClass) (s : List Char) :
    Matches (star (cls k)) s ↔ ∀ c ∈ s, k.test c = true := by
  induction s with
  | nil => simp [Matches.starNil]
  | cons c s ih =>
    constructor
    · intro h
      obtain ⟨s1, s2, hs, h1, h2⟩ := matches_star_cons (cls k) c s h
      obtain ⟨d, hd, hk⟩ := (matches_cls_iff k (c :: s1)).1 h1
      simp only [List.cons.injEq] at hd
      obtain ⟨hcd, hnil⟩ := hd
      subst hcd hnil
      simp only [List.nil_append] at hs
      subst hs
      intro e he
      rcases List.mem_cons.1 he with rfl | he
      · exact hk
      · exact ih.1 h2 e he
    · intro h
      exact Matches.starCons (cls k) [c] s (Matches.cls k c (h c (List.mem_cons_self c s)))
        (ih.2 fun e he => h e (List.mem_cons_of_mem c he))

/-- The inputs matched in full by `[k]+`: non-empty, every character in the
class. -/
theorem fullMatch_plus_cls (k : CharClass) (s : List Char) :
    fullMatch (plus (cls k)) s = true ↔ s ≠ [] ∧ ∀ c ∈ s, k.test c = true := by
  rw [fullMatch_iff, plus, matches_seq_iff]
  constructor
  · rintro ⟨s1, s2, hs, h1, h2⟩
    obtain ⟨d, hd, hk⟩ := (matches_cls_iff k s1).1 h1
    subst hd hs
    refine ⟨by simp, ?_⟩
    intro e he
    rcases List.mem_cons.1 he with rfl | he
    · exact hk
    · exact (matches_star_cls_iff k s2).1 h2 e he
  · rintro ⟨hne, hall⟩
    cases s with
    | nil => exact absurd rfl hne
    | cons c s =>
      exact ⟨[c], s, rfl, Matches.cls k c (hall c (List.mem_cons_self c s)),
        (matches_star_cls_iff k s).2 fun e he => hall e (List.mem_cons_of_mem c he)⟩

end Regex

/-! ## Contact-number validation: claim -/

/-- A range with equal ends contains one character. -/
theorem char_between_self (a c : Char) : (a ≤ c ∧ c ≤ a) ↔ c = a :=
  ⟨fun h => le_antisymm h.2 h.1, fun h => by subst h; exact ⟨le_refl _, le_refl _⟩⟩

/-- The range `0-9` is the decimal digits. -/
theorem char_between_digits (c : Char) : ('0' ≤ c ∧ c ≤ '9') ↔ c.isDigit = true := by
  simp only [Char.isDigit, Bool.and_eq_true, decide_eq_true_eq, ge_iff_le, Char.le_def]
  exact Iff.rfl

/-- Membership in the class `[0-9()+\- ]`. -/
theorem phoneClass_test (c : Char) :
    phoneClass.test c = true ↔
      (c.isDigit = true ∨ c = '(' ∨ c = ')' ∨ c = '+' ∨ c = '-' ∨ c = ' ') := by
  simp only [CharClass.test, phoneClass, List.any_cons, List.any_nil, Bool.or_false,
    bne_iff_ne, ne_eq, Bool.not_eq_false, Bool.or_eq_true, Bool.and_eq_true,
    decide_eq_true_eq, char_between_self, char_between_digits]

/-- Membership in the class `[^0-9]`. -/
theorem nonDigitClass_test (c : Char) : nonDigitClass.test c = !c.isDigit := by
  have h := char_between_digits c
  cases hd : c.isDigit with
  | true =>
    rw [hd] at h
    simp [CharClass.test, nonDigitClass, h.2 rfl]
  | false =>
    rw [hd] at h
    have : ¬ ('0' ≤ c ∧ c ≤ '9') := fun hc => Bool.false_ne_true (h.1 hc)
    simp only [CharClass.test, nonDigitClass, List.any_cons, List.any_nil, Bool.or_false,
      Bool.not_false, bne_iff_ne, ne_eq, Bool.and_eq_true, decide_eq_true_eq]
    simpa using this

/-- Deleting the non-digits keeps the digits. -/
theorem replaceAllWithEmpty_nonDigit (input : List Char) :
    replaceAllWithEmpty nonDigitClass input = input.filter Char.isDigit := by
  unfold replaceAllWithEmpty
  congr 1
  funext c
  rw [nonDigitClass_test, Bool.not_not]

/-- C10: `isContactNumberValid(s)` is true if and only if `s` is non-empty, every
character of `s` is a decimal digit, `(`, `)`, `+`, `-` or a space, and `s` has
at least 10 and at most 15 decimal digits.  It accepts "+1 (555) 123-4567" (11
digits) and rejects "12345" (5 digits). -/
theorem isContactNumberValid_iff (s : String) :
    (isContactNumberValid s = true ↔
      s ≠ "" ∧
      (∀ c ∈ s.toList,
        c.isDigit = true ∨ c = '(' ∨ c = ')' ∨ c = '+' ∨ c = '-' ∨ c = ' ') ∧
      10 ≤ (s.toList.filter Char.isDigit).length ∧
      (s.toList.filter Char.isDigit).length ≤ 15) ∧
    isContactNumberValid "+1 (555) 123-4567" = true ∧
    ("+1 (555) 123-4567".toList.filter Char.isDigit).length = 11 ∧
    isContactNumberValid "12345" = false ∧
    ("12345".toList.filter Char.isDigit).length = 5 := by
  refine ⟨?_, by decide, by decide, by decide, by decide⟩
  have hne : s ≠ "" ↔ s.toList ≠ [] := by
    constructor
    · intro h hnil
      apply h
      apply String.ext
      exact hnil
    · intro h hs
      subst hs
      exact h rfl
  unfold isContactNumberValid
  simp only [Bool.and_eq_true, decide_eq_true_eq, ge_iff_le, replaceAllWithEmpty_nonDigit,
    phoneRegex, Regex.fullMatch_plus_cls, phoneClass_test, hne]
  tauto

/-! ## Sign-in and sign-up form: lemmas -/

/-- The unanchored test succeeds exactly when some stretch of the input matches. -/
theorem Regex.test_iff (r : Regex) (input : List Char) :
    r.test input = true ↔
      ∃ before stretch after, input = before ++ (stretch ++ after) ∧ r.Matches stretch := by
  unfold Regex.test
  simp only [List.any_eq_true, List.mem_tails, List.mem_inits, Regex.fullMatch_iff]
  constructor
  · rintro ⟨rest, ⟨before, hb⟩, stretch, ⟨after, ha⟩, hm⟩
    exact ⟨before, stretch, after, by rw [ha, hb], hm⟩
  · rintro ⟨before, stretch, after, h, hm⟩
    exact ⟨stretch ++ after, ⟨before, h.symm⟩, stretch, ⟨after, rfl⟩, hm⟩

/-- The inputs matched by `[k]+`. -/
theorem Regex.matches_plus_cls_iff (k : CharClass) (s : List Char) :
    (Regex.plus (.cls k)).Matches s ↔ s ≠ [] ∧ ∀ c ∈ s, k.test c = true := by
  rw [← Regex.fullMatch_iff, Regex.fullMatch_plus_cls]

/-- A one-character pattern matches that character only. -/
theorem Regex.matches_lit_iff (c : Char) (s : List Char) :
    (Regex.lit c).Matches s ↔ s = [c] := by
  unfold Regex.lit
  rw [Regex.matches_cls_iff]
  constructor
  · rintro ⟨d, hd, hk⟩
    have hdc : d = c := by
      simpa [CharClass.test, char_between_self] using hk
    rw [hd, hdc]
  · intro h
    exact ⟨c, h, by simp [CharClass.test]⟩

/-- The class `\S` is the complement of `\s`. -/
theorem nonWhitespaceClass_test (c : Char) :
    nonWhitespaceClass.test c = true ↔ whitespaceClass.test c = false := by
  have h : nonWhitespaceClass.test c = !whitespaceClass.test c := by
    simp [CharClass.test, nonWhitespaceClass, whitespaceClass]
  rw [h]
  cases whitespaceClass.test c <;> simp

/-- The inputs matched in full by `\S+@\S+\.\S+`. -/
theorem matches_emailRegex_iff (s : List Char) :
    emailRegex.Matches s ↔
      ∃ a b c, s = a ++ ('@' :: (b ++ ('.' :: c))) ∧
        NonSpaceRun a ∧ NonSpaceRun b ∧ NonSpaceRun c := by
  unfold emailRegex NonSpaceRun
  simp only [Regex.matches_seq_iff, Regex.matches_plus_cls_iff, Regex.matches_lit_iff,
    nonWhitespaceClass_test]
  constructor
  · rintro ⟨a, r1, rfl, ha, at_, r2, rfl, rfl, b, r3, rfl, hb, dot, c, rfl, rfl, hc⟩
    exact ⟨a, b, c, by simp, ha, hb, hc⟩
  · rintro ⟨a, b, c, rfl, ha, hb, hc⟩
    exact ⟨a, _, rfl, ha, ['@'], _, rfl, rfl, b, _, rfl, hb, ['.'], c, rfl, rfl, hc⟩

/-- The three groups of `validate` are all empty exactly when each check passes. -/
theorem validate_eq_nil_iff (action : String) (state : LoginState) :
    validate action state = [] ↔
      (state.email ≠ "" ∧ emailRegex.test state.email.toList = true) ∧
      (state.password ≠ "" ∧ 6 ≤ jsLength state.password) ∧
      (action = "Sign Up" → state.firstname ≠ "" ∧ state.lastname ≠ "") := by
  have hemail : (if state.email = "" then [("email", "Email is required")]
      else if (!emailRegex.test state.email.toList) = true then
        [("email", "Please enter a valid email address")]
      else ([] : FormErrors)) = [] ↔
      (state.email ≠ "" ∧ emailRegex.test state.email.toList = true) := by
    by_cases h1 : state.email = ""
    · simp [h1]
    · cases h2 : emailRegex.test state.email.toList with
      | true => simp [h1]
      | false => simp [h1]
  have hpassword : (if state.password = "" then [("password", "Password is required")]
      else if jsLength state.password < 6 then
        [("password", "Password must be at least 6 characters")]
      else ([] : FormErrors)) = [] ↔
      (state.password ≠ "" ∧ 6 ≤ jsLength state.password) := by
    by_cases h1 : state.password = ""
    · simp [h1]
    · by_cases h2 : jsLength state.password < 6
      · simp [h1, h2]
      · simp [h1, h2]
        omega
  have hnames : (if action = "Sign Up" then
        (if state.firstname = "" then [("firstname", "First name is required")] else []) ++
        (if state.lastname = "" then [("lastname", "Last name is required")] else [])
      else ([] : FormErrors)) = [] ↔
      (action = "Sign Up" → state.firstname ≠ "" ∧ state.lastname ≠ "") := by
    by_cases h1 : action = "Sign Up"
    · by_cases h2 : state.firstname = ""
      · simp [h1, h2]
      · by_cases h3 : state.lastname = ""
        · simp [h1, h2, h3]
        · simp [h1, h2, h3]
    · simp [h1]
  unfold validate
  rw [List.append_eq_nil, List.append_eq_nil, hemail, hpassword, hnames, and_assoc]

/-! ## Sign-in and sign-up form: claims -/

/-- C11: `validate` returns an empty error set if and only if the email is
non-empty and contains a match of non-space characters, `@`, non-space
characters, `.`, non-space characters; the password is non-empty with a
`length` of at least 6; and, in "Sign Up" mode only, `firstname` and `lastname`
are non-empty.  `handleSubmit` sends a request exactly when `validate` returns
an empty error set; otherwise it records the errors and sends nothing. -/
theorem validate_gates_handleSubmit (backendUrl : String) (m : LoginModal) :
    (validate m.action m.state = [] ↔
      (m.state.email ≠ "" ∧
        ∃ before a b c after,
          m.state.email.toList = before ++ (a ++ ('@' :: (b ++ ('.' :: c))) ++ after) ∧
          NonSpaceRun a ∧ NonSpaceRun b ∧ NonSpaceRun c) ∧
      (m.state.password ≠ "" ∧ 6 ≤ jsLength m.state.password) ∧
      (m.action = "Sign Up" → m.state.firstname ≠ "" ∧ m.state.lastname ≠ "")) ∧
    ((handleSubmit backendUrl m).2.isSome = true ↔ validate m.action m.state = []) ∧
    (validate m.action m.state ≠ [] →
      handleSubmit backendUrl m =
        ({ m with responseMessage := "", errors := validate m.action m.state }, none)) ∧
    (validate m.action m.state = [] →
      (handleSubmit backendUrl m).1 = { m with responseMessage := "", errors := [], loading := true } ∧
      ∃ request, (handleSubmit backendUrl m).2 = some request ∧
        request.method = "POST" ∧
        request.url = backendUrl ++ (if m.action = "Sign In" then "/api/auth" else "/api/users")) := by
  refine ⟨?_, ?_, ?_, ?_⟩
  · rw [validate_eq_nil_iff, Regex.test_iff]
    simp only [matches_emailRegex_iff]
    constructor
    · rintro ⟨⟨h1, before, stretch, after, hs, a, b, c, rfl, ha, hb, hc⟩, h2, h3⟩
      exact ⟨⟨h1, before, a, b, c, after, hs, ha, hb, hc⟩, h2, h3⟩
    · rintro ⟨⟨h1, before, a, b, c, after, hs, ha, hb, hc⟩, h2, h3⟩
      exact ⟨⟨h1, before, _, after, hs, a, b, c, rfl, ha, hb, hc⟩, h2, h3⟩
  · unfold handleSubmit
    cases hv : validate m.action m.state with
    | nil => simp
    | cons e es => simp
  · intro hne
    unfold handleSubmit
    cases hv : validate m.action m.state with
    | nil => exact absurd hv hne
    | cons e es => simp
  · intro hnil
    unfold handleSubmit
    rw [hnil]
    refine ⟨by simp, ?_⟩
    by_cases ha : m.action = "Sign In"
    · simp [ha]
    · simp [ha]

/-- The witness of C11: a well-formed sign-in form passes `validate` and is sent. -/
theorem validate_gates_handleSubmit_witness :
    validate goodSignIn.action goodSignIn.state = [] ∧
      (handleSubmit "https://backend" goodSignIn).1 =
        { goodSignIn with responseMessage := "", errors := [], loading := true } :=
  ⟨by decide, ((validate_gates_handleSubmit "https://backend" goodSignIn).2.2.2 (by decide)).1⟩

/-- Trimming leaves nothing exactly when every character is white space. -/
theorem trimChars_eq_nil_iff (s : List Char) :
    trimChars s = [] ↔ ∀ c ∈ s, whitespaceClass.test c = true := by
  unfold trimChars
  rw [List.reverse_eq_nil_iff, List.dropWhile_eq_nil_iff]
  simp only [List.mem_reverse]
  constructor
  · intro h
    have hnil : s.dropWhile whitespaceClass.test = [] := by
      by_contra hne
      have hhead := List.head_dropWhile_not whitespaceClass.test s hne
      rw [h _ (List.head_mem hne)] at hhead
      exact Bool.noConfusion hhead
    exact List.dropWhile_eq_nil_iff.1 hnil
  · intro h c hc
    exact h c ((List.dropWhile_sublist _).subset hc)

/-- A string is non-empty after `trim` exactly when it holds a character that is
not white space. -/
theorem jsTrim_ne_empty_iff (s : String) :
    jsTrim s ≠ "" ↔ ∃ c ∈ s.toList, whitespaceClass.test c = false := by
  have h : jsTrim s = "" ↔ trimChars s.toList = [] := by
    unfold jsTrim
    constructor
    · intro h
      exact congrArg String.toList h
    · intro h
      rw [h]
  rw [Ne, h, trimChars_eq_nil_iff]
  constructor
  · intro hn
    by_contra hex
    apply hn
    intro c hc
    cases ht : whitespaceClass.test c with
    | true => rfl
    | false => exact absurd ⟨c, hc, ht⟩ hex
  · rintro ⟨c, hc, ht⟩ hall
    rw [hall c hc] at ht
    exact Bool.noConfusion ht

/-- The email of a form that passes `validate` is still non-empty after
`sanitizeInput`. -/
theorem sanitizeInput_email_ne_empty (action : String) (state : LoginState)
    (h : validate action state = []) : sanitizeInput state.email ≠ "" := by
  obtain ⟨⟨_, htest⟩, _⟩ := (validate_eq_nil_iff action state).1 h
  obtain ⟨before, stretch, after, hs, hm⟩ := (Regex.test_iff _ _).1 htest
  obtain ⟨a, b, c, rfl, _, _, _⟩ := (matches_emailRegex_iff stretch).1 hm
  unfold sanitizeInput
  rw [jsTrim_ne_empty_iff]
  refine ⟨'@', ?_, by decide⟩
  rw [hs]
  simp

/-- C14: every payload that `handleSubmit` sends should itself satisfy the
validation rules.  The sign-up form with email "a@b.c", a password of six
spaces, the first name " " and the last name "Lee" passes `validate`, and the
payload sent for it has an empty password and an empty first name: the fields
are checked before `sanitizeInput` trims them. -/
theorem handleSubmit_sends_blank_fields :
    validate blankSignUp.action blankSignUp.state = [] ∧
      (handleSubmit "" blankSignUp).2 =
        some { url := "/api/users", method := "POST",
               body := { email := "a@b.c", password := "", firstName := some "",
                         lastName := some "Lee" } } :=
  ⟨by decide, by decide⟩

/-! ## Booking form: claims -/

/-- A deliverable event keeps the dialog closed or the form valid. -/
theorem step_preserves_open_valid (e : BookingEvent) (s : BookingForm)
    (hen : e.enabled s = true)
    (hinv : s.modalState.isOpen = true → isFormValid s.formData = true) :
    (e.step s).modalState.isOpen = true → isFormValid (e.step s).formData = true := by
  cases e with
  | inputChange name value =>
    simp only [BookingEvent.enabled, Bool.and_eq_true, Bool.not_eq_true'] at hen
    intro h
    simp only [BookingEvent.step, handleInputChange] at h
    rw [hen.1] at h
    exact Bool.noConfusion h
  | openModal =>
    simp only [BookingEvent.step, handleOpenModal]
    by_cases hv : isFormValid s.formData = true
    · rw [if_pos hv]
      intro _
      exact hv
    · rw [if_neg hv]
      exact hinv
  | confirmBooking responseOk =>
    cases responseOk with
    | true =>
      intro h
      simp [BookingEvent.step, handleConfirmBooking] at h
    | false => simpa [BookingEvent.step, handleConfirmBooking] using hinv
  | closeModal =>
    intro h
    simp [BookingEvent.step, handleCloseModal] at h
  | closeConfirmationModal => simpa [BookingEvent.step, handleCloseConfirmationModal] using hinv

/-- Along every deliverable sequence of events, an open dialog comes with a valid
form. -/
theorem runEvents_open_valid (es : List BookingEvent) :
    ∀ (s final : BookingForm),
      (s.modalState.isOpen = true → isFormValid s.formData = true) →
      runEvents es s = some final →
      final.modalState.isOpen = true → isFormValid final.formData = true := by
  induction es with
  | nil =>
    intro s final hinv hrun
    simp only [runEvents, Option.some.injEq] at hrun
    subst hrun
    exact hinv
  | cons e es ih =>
    intro s final hinv hrun
    unfold runEvents at hrun
    by_cases hen : e.enabled s = true
    · rw [if_pos hen] at hrun
      exact ih (e.step s) final (step_preserves_open_valid e s hen hinv) hrun
    · rw [if_neg hen] at hrun
      cases hrun

/-- C12: `isFormValid` holds if and only if `fullName`, `service` and
`serviceInfo` are non-empty after trimming and `contactNumber` satisfies
`isContactNumberValid`.  `handleOpenModal` sets `isOpen` to true when
`isFormValid` holds and otherwise leaves the state unchanged; no other handler
opens the dialog; so in every session the dialog, and with it the button that
posts the booking, is only available while the form is valid. -/
theorem isFormValid_gates_dialog (s : BookingForm) :
    (isFormValid s.formData = true ↔
      jsTrim s.formData.fullName ≠ "" ∧ jsTrim s.formData.service ≠ "" ∧
        jsTrim s.formData.serviceInfo ≠ "" ∧
        isContactNumberValid s.formData.contactNumber = true) ∧
    (isFormValid s.formData = true →
      handleOpenModal s =
        { s with modalState :=
            { isOpen := true, isBookingConfirmed := s.modalState.isBookingConfirmed } }) ∧
    (isFormValid s.formData = false → handleOpenModal s = s) ∧
    (s.modalState.isOpen = false →
      ((handleOpenModal s).modalState.isOpen = true ↔ isFormValid s.formData = true)) ∧
    (∀ e : BookingEvent, s.modalState.isOpen = false → (e.step s).modalState.isOpen = true →
      e = .openModal ∧ isFormValid s.formData = true) ∧
    (∀ (es : List BookingEvent) (final : BookingForm) (responseOk : Bool),
      runEvents es BookingForm.initial = some final →
      (BookingEvent.confirmBooking responseOk).enabled final = true →
      final.modalState.isOpen = true ∧ isFormValid final.formData = true) := by
  refine ⟨?_, ?_, ?_, ?_, ?_, ?_⟩
  · simp only [isFormValid, Bool.and_eq_true, decide_eq_true_eq]
    tauto
  · intro hv
    simp [handleOpenModal, hv]
  · intro hv
    simp [handleOpenModal, hv]
  · intro hclosed
    unfold handleOpenModal
    by_cases hv : isFormValid s.formData = true
    · simp [hv]
    · simp [hv, hclosed]
  · intro e hclosed hopen
    cases e with
    | inputChange name value =>
      simp [BookingEvent.step, handleInputChange, hclosed] at hopen
    | openModal =>
      refine ⟨rfl, ?_⟩
      by_contra hv
      simp [BookingEvent.step, handleOpenModal, hv, hclosed] at hopen
    | confirmBooking responseOk =>
      cases responseOk <;> simp [BookingEvent.step, handleConfirmBooking, hclosed] at hopen
    | closeModal => simp [BookingEvent.step, handleCloseModal] at hopen
    | closeConfirmationModal =>
      simp [BookingEvent.step, handleCloseConfirmationModal, hclosed] at hopen
  · intro es final responseOk hrun hen
    have hopen : final.modalState.isOpen = true := by
      simpa [BookingEvent.enabled] using hen
    exact ⟨hopen, runEvents_open_valid es BookingForm.initial final
      (fun h => by simp [BookingForm.initial] at h) hrun hopen⟩

/-- The witness of C12: after the form is filled in and "Confirm Booking" is
pressed, the dialog is open and the form is valid. -/
theorem isFormValid_gates_dialog_witness :
    runEvents fillAndOpen BookingForm.initial =
        some (handleOpenModal
          { modalState := { isOpen := false, isBookingConfirmed := false }
            formData := { fullName := "Ann", contactNumber := "+1 (555) 123-4567",
                          service := "Oil Change", serviceInfo := "Civic" } }) ∧
      isFormValid
        (handleOpenModal
          { modalState := { isOpen := false, isBookingConfirmed := false }
            formData := { fullName := "Ann", contactNumber := "+1 (555) 123-4567",
                          service := "Oil Change", serviceInfo := "Civic" } }).formData = true :=
  ⟨by decide,
    ((isFormValid_gates_dialog BookingForm.initial).2.2.2.2.2 fillAndOpen _ true
      (by decide) (by decide)).2⟩

/-! ## Filter change: claim -/

/-- Reading back a key after `update`. -/
theorem Filters.get_update (f : Filters) (name value key : String) :
    (f.update name value).get key = if key = name then some value else f.get key := by
  have hfind : ∀ (l : List (String × String)), key ≠ name →
      (l.filter fun kv => kv.1 != name).find? (fun kv => kv.1 == key) =
        l.find? (fun kv => kv.1 == key) := by
    intro l hk
    induction l with
    | nil => rfl
    | cons kv l ih =>
      by_cases h1 : kv.1 = name
      · have hb : (kv.1 != name) = false := by simp [h1]
        have hbk : (kv.1 == key) = false := by
          rw [beq_eq_false_iff_ne]
          exact fun h => hk (h.symm.trans h1)
        rw [List.filter_cons, hb]
        simp only [Bool.false_eq_true, if_false]
        rw [ih, List.find?_cons, hbk]
      · have hb : (kv.1 != name) = true := by simp [h1]
        rw [List.filter_cons, hb]
        simp only [if_true]
        rw [List.find?_cons, List.find?_cons, ih]
  unfold Filters.update
  by_cases hk : key = name
  · subst hk
    simp only [if_true]
    split_ifs with h1 h2 h3 h4 <;> simp [Filters.get, *]
  · rw [if_neg hk]
    split_ifs with h1 h2 h3 h4
    · have : ¬ key = "customerName" := fun h => hk (h.trans h1.symm)
      simp [Filters.get, this]
    · have : ¬ key = "status" := fun h => hk (h.trans h2.symm)
      simp [Filters.get, this]
    · have : ¬ key = "service" := fun h => hk (h.trans h3.symm)
      simp [Filters.get, this]
    · have : ¬ key = "date" := fun h => hk (h.trans h4.symm)
      simp [Filters.get, this]
    · have hbk : (name == key) = false := by
        rw [beq_eq_false_iff_ne]
        exact fun h => hk h.symm
      unfold Filters.get
      simp only [List.find?_cons, hbk, hfind f.extra hk]

/-- C13: `handleFilterChange(name, value)` resets `currentPage` to 1 and sets
exactly the criteria field called `name` to `value`: every other field of the
filter criteria, the fetched collection, `itemsPerPage` and the selected record
are unchanged, and no fetch is issued. -/
theorem handleFilterChange_frame (name value : String) (v : View) :
    (handleFilterChange name value v).currentPage = 1 ∧
    (handleFilterChange name value v).filters.get name = some value ∧
    (∀ key, key ≠ name → (handleFilterChange name value v).filters.get key = v.filters.get key) ∧
    (handleFilterChange name value v).bookedServices = v.bookedServices ∧
    (handleFilterChange name value v).itemsPerPage = v.itemsPerPage ∧
    (handleFilterChange name value v).selectedService = v.selectedService ∧
    fetchIssued v (handleFilterChange name value v) = false := by
  refine ⟨rfl, ?_, ?_, rfl, rfl, rfl, rfl⟩
  · simp [handleFilterChange, Filters.get_update]
  · intro key hk
    simp [handleFilterChange, Filters.get_update, hk]

/-- The witness of C13: setting the status criterion of the sample state leaves
its customer-name criterion alone. -/
theorem handleFilterChange_frame_witness :
    "customerName" ≠ "status" ∧
      (handleFilterChange "status" "Completed" pageThreeView).filters.get "customerName" =
        pageThreeView.filters.get "customerName" :=
  ⟨by decide,
    (handleFilterChange_frame "status" "Completed" pageThreeView).2.2.1 "customerName"
      (by decide)⟩

end AutoChef
